import Mathlib

/-!
Shallow embedding of `screenlaunch.py`: a tool that manages services inside
detached screen sessions and tears their process trees down with an
escalating signal ladder.

The OS is modelled as an oracle `Env`:
  * `table t` is the process-table snapshot (parent, child pairs) the OS
    reports at time `t` — re-queried fresh at every call, as in the source;
  * `quitEffect name sessions` is the (arbitrary, unverified) effect of the
    external `screen -S name -X quit` command on the session listing.
The mutable world is a state `St` carrying the current time, the current
session listing, and a chronological log of observable events (signals
sent, liveness checks performed, sleeps, quit commands issued).
Times and durations are rationals; the source's float literals
(2.0, 0.5, 0.1, 3.0) are taken as exact rationals, which is faithful for
every control-flow property considered here.
-/

namespace Screenlaunch

/-- Observable events of a run, in chronological order: a signal send
(`terminate_attempt` prints and calls `os.kill`), a liveness check with the
observed answer (`check_running_pid`), a sleep (`time.sleep`), and the
session-quit command (`os.system('screen -S ... -X quit')`). -/
inductive Event where
  | kill : String → ℕ → Event
  | check : ℕ → Bool → Event
  | sleep : ℚ → Event
  | quit : String → Event
deriving DecidableEq

/-- Source lines 40-43: `Signal = namedtuple('Signal', ['name', 'signal'])`. -/
structure Signal where
  name : String
  signal : ℕ
deriving DecidableEq

/-- Source line 41: `SIGINT = Signal(name='-INT', signal=signal.SIGINT)`. -/
def SIGINT : Signal := ⟨"-INT", 2⟩

/-- Source line 42: `SIGTERM = Signal(name='-TERM', signal=signal.SIGTERM)`. -/
def SIGTERM : Signal := ⟨"-TERM", 15⟩

/-- Source line 43: `SIGKILL = Signal(name='-KILL', signal=signal.SIGKILL)`. -/
def SIGKILL : Signal := ⟨"-KILL", 9⟩

/-- The OS oracle: the process table as reported at each time, and the
external effect of the multiplexer's quit command on the session listing. -/
structure Env where
  table : ℚ → List (ℕ × ℕ)
  quitEffect : String → List (String × ℕ) → List (String × ℕ)

/-- World state: current time, current screen-session listing
(name, pid pairs as parsed by `get_screen_sessions`), and the event log. -/
structure St where
  time : ℚ
  sessions : List (String × ℕ)
  log : List Event
deriving DecidableEq

/-- Source lines 46-54, `get_screen_sessions`: name → pid listing of active
screen sessions, re-read from the OS (here: from the state). -/
def get_screen_sessions (s : St) : List (String × ℕ) :=
  s.sessions

/-- Source lines 119-128, `get_running_gid_pid`: the (parent, child) pid
pairs of the live process table, parsed from `ps -eo "%P %p"` — here the
oracle's snapshot at the current time. -/
def get_running_gid_pid (env : Env) (s : St) : List (ℕ × ℕ) :=
  env.table s.time

/-- Source lines 57-64, `check_screen_pid`: `pid in [int(x) for x in
get_screen_sessions().values()]`. -/
def check_screen_pid (pid : ℕ) (s : St) : Bool :=
  decide (pid ∈ (get_screen_sessions s).map Prod.snd)

/-- Source lines 67-78, `terminate_attempt`: print and `os.kill`, with
`ProcessLookupError` suppressed, so the only observable effect is the
logged send.  The source's default argument is `SIGINT`; both call sites
pass the signal explicitly. -/
def terminate_attempt (pid : ℕ) (killsignal : Signal) (s : St) : St :=
  { s with log := s.log ++ [Event.kill killsignal.name pid] }

/-- Source lines 81-88, `check_running_pid`: `pid in [child for parent,
child in get_running_gid_pid()]`, on a fresh snapshot; the observation is
logged. -/
def check_running_pid (env : Env) (pid : ℕ) (s : St) : Bool × St :=
  let alive := decide (pid ∈ (get_running_gid_pid env s).map Prod.snd)
  (alive, { s with log := s.log ++ [Event.check pid alive] })

/-- Body of the `while remain > 0.` loop of `wait_killed` (source lines
100-106), indexed by a fuel that counts the remaining loop iterations.
Each iteration: fresh liveness check, return `true` at once if the pid is
gone, else `remain -= step; time.sleep(step)`. -/
def wait_go (env : Env) (pid : ℕ) (step : ℚ) : ℕ → ℚ → St → Bool × St
  | 0, _, s => (false, s)
  | Nat.succ fuel, remain, s =>
    if 0 < remain then
      let c := check_running_pid env pid s
      if c.1 then
        wait_go env pid step fuel (remain - step)
          { c.2 with time := c.2.time + step, log := c.2.log ++ [Event.sleep step] }
      else (true, c.2)
    else (false, s)

/-- Source lines 91-106, `wait_killed(pid, maxwait=3., step=0.1)`.  For
`0 < step` the `while remain > 0.` loop performs exactly
`⌈maxwait / step⌉` iterations unless it returns early, and at fuel
exhaustion the remaining budget is non-positive, so the fuel-indexed
`wait_go` coincides with the source loop for every positive step (the
source is only ever called with the positive steps 0.1 and the default);
for `maxwait ≤ 0` it coincides for every step (the loop body never runs). -/
def wait_killed (env : Env) (pid : ℕ) (maxwait step : ℚ) (s : St) : Bool × St :=
  wait_go env pid step (Int.toNat ⌈maxwait / step⌉) maxwait s

/-- Source lines 109-116, `get_child_pid`: children of `pid` in a fresh
snapshot, in table order. -/
def get_child_pid (env : Env) (pid : ℕ) (s : St) : List ℕ :=
  ((get_running_gid_pid env s).filter (fun pr => pr.1 == pid)).map Prod.snd

/-- Source lines 178-188, `get_pid`: pid of the screen session with the
given name, `None` when absent. -/
def get_pid (module_name : String) (s : St) : Option ℕ :=
  (get_screen_sessions s).lookup module_name

/-- Source line 156: `os.system('screen -S {module_name} -X quit')` — an
external command whose result is not inspected; its effect on the session
listing is the oracle's `quitEffect`, and the issue is logged. -/
def screen_quit (env : Env) (module_name : String) (s : St) : St :=
  { s with sessions := env.quitEffect module_name s.sessions,
           log := s.log ++ [Event.quit module_name] }

/-- The `for ntry in range(3)` loop of `terminate_loop` (source lines
167-170): send `SIGTERM`, wait up to 2.0 s, return `true` on confirmed
death, else next round. -/
def terminate_rounds (env : Env) (pid : ℕ) : ℕ → St → Bool × St
  | 0, s => (false, s)
  | Nat.succ n, s =>
    let s1 := terminate_attempt pid SIGTERM s
    let r := wait_killed env pid 2 (1/10) s1
    if r.1 then (true, r.2) else terminate_rounds env pid n r.2

/-- Source lines 160-175, `terminate_loop`: three `SIGTERM` rounds with a
2.0 s wait each; if the process survives all three, one `SIGKILL` followed
by a 0.5 s wait, whose outcome is the result. -/
def terminate_loop (env : Env) (pid : ℕ) (s : St) : Bool × St :=
  let r := terminate_rounds env pid 3 s
  if r.1 then r
  else
    let s1 := terminate_attempt pid SIGKILL r.2
    wait_killed env pid (1/2) (1/10) s1

/-- Module descriptor (one value of the source's `MODULES` dict, lines
16-38): optional virtualenv, command line, optional cleanup hook.  The
hook receives the service pid and, like the source's lambdas, may query
the live process table, hence the `Env`/`St` arguments. -/
structure ModuleDesc where
  virtual_env : Option String
  command : String
  cleanup : Option (ℕ → Env → St → List ℕ)

/-- Source lines 16-38, the `MODULES` catalog.  The `airflow_webserver`
cleanup hook is `lambda x: get_child_pid(x)[:1]`. -/
def MODULES : List (String × ModuleDesc) :=
  [("airflow_scheduler", ⟨some "ds", "airflow scheduler", none⟩),
   ("airflow_webserver",
     ⟨some "ds", "airflow webserver", some (fun x env s => (get_child_pid env x s).take 1)⟩),
   ("jupyter", ⟨some "ds", "jupyter notebook", none⟩),
   ("mongo", ⟨none, "mongo_start.sh", none⟩),
   ("webservices", ⟨some "ds", "uwsgi -C666 -s /tmp/uwsgi.sock -w lof_webserver:app", none⟩)]

/-- The `for cleanup_pid in cleanup_pids` loop of `terminate` (source
lines 149-151): ladder each auxiliary pid in order, aborting on the first
failure. -/
def cleanup_loop (env : Env) : List ℕ → St → Bool × St
  | [], s => (true, s)
  | p :: rest, s =>
    let r := terminate_loop env p s
    if r.1 then cleanup_loop env rest r.2 else (false, r.2)

/-- Source lines 131-157, `terminate`.  The source reads the module
catalog from the global `MODULES`; it is an explicit parameter here, with
`MODULES` above the source's literal value.  `bash_pid = get_child_pid(pid)[0]`
and `main_pid = get_child_pid(bash_pid)[0]` with `IndexError` caught map to
`head?` matches (and a `None` session pid yields no children, hence the
same `IndexError` path).  The uncaught `KeyError` of `MODULES[module_name]`
is the `none` result. -/
def terminate (env : Env) (modules : List (String × ModuleDesc))
    (module_name : String) (s : St) : Option (Bool × St) :=
  match get_pid module_name s with
  | none => some (false, s)
  | some pid =>
    match (get_child_pid env pid s).head? with
    | none => some (false, s)
    | some bash_pid =>
      match (get_child_pid env bash_pid s).head? with
      | none => some (false, s)
      | some main_pid =>
        match modules.lookup module_name with
        | none => none
        | some desc =>
          let cleanup_pids := (desc.cleanup.getD (fun _ _ _ => [])) main_pid env s
          let r1 := terminate_loop env main_pid s
          if r1.1 then
            let rc := cleanup_loop env cleanup_pids r1.2
            if rc.1 then
              let r2 := terminate_loop env bash_pid rc.2
              if r2.1 then
                let s4 := screen_quit env module_name r2.2
                some (!check_screen_pid pid s4, s4)
              else some (false, r2.2)
            else some (false, rc.2)
          else some (false, r1.2)

/-- The (signal name, target pid) pairs of the kill events of a log, in
order. -/
def killsIn (l : List Event) : List (String × ℕ) :=
  l.filterMap (fun e => match e with | Event.kill n p => some (n, p) | _ => none)

/-- The target pids of the kill events of a log, in order. -/
def killPids (l : List Event) : List ℕ :=
  (killsIn l).map Prod.snd

/-- Whether an event is a session-quit command. -/
def isQuit : Event → Bool
  | Event.quit _ => true
  | _ => false

/-! ### Trace lemmas for the liveness wait -/

theorem wait_go_zero (env : Env) (pid : ℕ) (step remain : ℚ) (s : St) :
    wait_go env pid step 0 remain s = (false, s) := rfl

theorem wait_go_succ (env : Env) (pid : ℕ) (step remain : ℚ) (fuel : ℕ) (s : St) :
    wait_go env pid step (fuel + 1) remain s =
      if 0 < remain then
        let c := check_running_pid env pid s
        if c.1 then
          wait_go env pid step fuel (remain - step)
            { c.2 with time := c.2.time + step, log := c.2.log ++ [Event.sleep step] }
        else (true, c.2)
      else (false, s) := rfl

theorem killsIn_append (a b : List Event) : killsIn (a ++ b) = killsIn a ++ killsIn b := by
  simp [killsIn]

@[simp] theorem killsIn_nil : killsIn [] = [] := rfl

@[simp] theorem killsIn_cons_kill (n : String) (p : ℕ) (l : List Event) :
    killsIn (Event.kill n p :: l) = (n, p) :: killsIn l := rfl

@[simp] theorem killsIn_cons_check (p : ℕ) (b : Bool) (l : List Event) :
    killsIn (Event.check p b :: l) = killsIn l := rfl

@[simp] theorem killsIn_cons_sleep (d : ℚ) (l : List Event) :
    killsIn (Event.sleep d :: l) = killsIn l := rfl

@[simp] theorem killsIn_cons_quit (n : String) (l : List Event) :
    killsIn (Event.quit n :: l) = killsIn l := rfl

theorem killPids_append (a b : List Event) : killPids (a ++ b) = killPids a ++ killPids b := by
  simp [killPids, killsIn_append]

/-- One loop step when the process is observed alive: check, then sleep. -/
theorem wait_go_step_alive (env : Env) (pid : ℕ) (step remain : ℚ) (fuel : ℕ) (s : St)
    (h0 : 0 < remain) (hal : pid ∈ (env.table s.time).map Prod.snd) :
    wait_go env pid step (fuel + 1) remain s =
      wait_go env pid step fuel (remain - step)
        { s with time := s.time + step,
                 log := s.log ++ [Event.check pid true, Event.sleep step] } := by
  rw [wait_go_succ]
  simp only [check_running_pid, get_running_gid_pid, if_pos h0, decide_eq_true hal]
  simp

/-- One loop step when the process is observed dead: immediate `true`
before any sleep. -/
theorem wait_go_step_dead (env : Env) (pid : ℕ) (step remain : ℚ) (fuel : ℕ) (s : St)
    (h0 : 0 < remain) (hdl : pid ∉ (env.table s.time).map Prod.snd) :
    wait_go env pid step (fuel + 1) remain s =
      (true, { s with log := s.log ++ [Event.check pid false] }) := by
  rw [wait_go_succ]
  simp only [check_running_pid, get_running_gid_pid, if_pos h0, decide_eq_false hdl]
  simp

/-- The wait loop only ever appends liveness checks (for its own pid) and
sleeps to the log, never touches the session listing, and returns `true`
exactly when one of its checks observed the pid absent. -/
theorem wait_go_trace (env : Env) (pid : ℕ) (step : ℚ) :
    ∀ (fuel : ℕ) (remain : ℚ) (s : St),
    ∃ tail,
      (wait_go env pid step fuel remain s).2.log = s.log ++ tail ∧
      (wait_go env pid step fuel remain s).2.sessions = s.sessions ∧
      killsIn tail = [] ∧
      (∀ e ∈ tail, isQuit e = false) ∧
      ((wait_go env pid step fuel remain s).1 = true ↔ Event.check pid false ∈ tail) := by
  intro fuel
  induction fuel with
  | zero =>
    intro remain s
    exact ⟨[], by simp [wait_go_zero], by simp [wait_go_zero], rfl, by simp,
      by simp [wait_go_zero]⟩
  | succ n ih =>
    intro remain s
    by_cases h0 : 0 < remain
    · by_cases hal : pid ∈ (env.table s.time).map Prod.snd
      · rw [wait_go_step_alive env pid step remain n s h0 hal]
        obtain ⟨tail, hlog, hsess, hkill, hquit, hiff⟩ :=
          ih (remain - step)
            { s with time := s.time + step,
                     log := s.log ++ [Event.check pid true, Event.sleep step] }
        refine ⟨Event.check pid true :: Event.sleep step :: tail, ?_, ?_, ?_, ?_, ?_⟩
        · simpa using hlog
        · simpa using hsess
        · simpa [killsIn] using hkill
        · intro e he
          rcases List.mem_cons.mp he with he | he
          · simp [isQuit, he]
          rcases List.mem_cons.mp he with he | he
          · simp [isQuit, he]
          · exact hquit e he
        · rw [hiff]
          simp
      · rw [wait_go_step_dead env pid step remain n s h0 hal]
        exact ⟨[Event.check pid false], by simp, by simp, rfl, by simp [isQuit], by simp⟩
    · rw [wait_go_succ]
      simp only [if_neg h0]
      exact ⟨[], by simp, by simp, rfl, by simp, by simp⟩

/-- Same trace facts for `wait_killed`. -/
theorem wait_killed_trace (env : Env) (pid : ℕ) (maxwait step : ℚ) (s : St) :
    ∃ tail,
      (wait_killed env pid maxwait step s).2.log = s.log ++ tail ∧
      (wait_killed env pid maxwait step s).2.sessions = s.sessions ∧
      killsIn tail = [] ∧
      (∀ e ∈ tail, isQuit e = false) ∧
      ((wait_killed env pid maxwait step s).1 = true ↔ Event.check pid false ∈ tail) :=
  wait_go_trace env pid step (Int.toNat ⌈maxwait / step⌉) maxwait s

/-- With a positive budget and step, a pid absent from the fresh snapshot
is confirmed dead by the very first check: no sleep, no time passes. -/
theorem wait_killed_dead_now (env : Env) (pid : ℕ) (maxwait step : ℚ) (s : St)
    (hdl : pid ∉ (env.table s.time).map Prod.snd)
    (hmw : 0 < maxwait) (hstep : 0 < step) :
    wait_killed env pid maxwait step s =
      (true, { s with log := s.log ++ [Event.check pid false] }) := by
  have hpos : 0 < Int.toNat ⌈maxwait / step⌉ := by
    have : (0 : ℤ) < ⌈maxwait / step⌉ := Int.ceil_pos.mpr (div_pos hmw hstep)
    omega
  obtain ⟨n, hn⟩ := Nat.exists_eq_succ_of_ne_zero (Nat.pos_iff_ne_zero.mp hpos)
  rw [wait_killed, hn]
  exact wait_go_step_dead env pid step maxwait n s hmw hdl

/-! ### Trace lemmas for the termination ladder -/

/-- Trace of the graceful rounds: `n` rounds of TERM-then-wait append only
events about `pid`, preserve the session listing, and either exit early
with `true` after `m + 1 ≤ n` TERM sends (a check saw the pid dead) or run
all `n` rounds, send exactly `n` TERMs, see the pid alive at every check,
and return `false`. -/
theorem terminate_rounds_trace (env : Env) (pid : ℕ) :
    ∀ (n : ℕ) (s : St),
    ∃ tail,
      (terminate_rounds env pid n s).2.log = s.log ++ tail ∧
      (terminate_rounds env pid n s).2.sessions = s.sessions ∧
      (∀ e ∈ tail, isQuit e = false) ∧
      (((terminate_rounds env pid n s).1 = true ∧
          ∃ m, m < n ∧ killsIn tail = List.replicate (m + 1) ("-TERM", pid) ∧
            Event.check pid false ∈ tail) ∨
       ((terminate_rounds env pid n s).1 = false ∧
          killsIn tail = List.replicate n ("-TERM", pid) ∧
          Event.check pid false ∉ tail)) := by
  intro n
  induction n with
  | zero =>
    intro s
    exact ⟨[], by simp [terminate_rounds], by simp [terminate_rounds], by simp,
      Or.inr ⟨by simp [terminate_rounds], rfl, by simp⟩⟩
  | succ n ih =>
    intro s
    obtain ⟨tw, hwlog, hwsess, hwkill, hwquit, hwiff⟩ :=
      wait_killed_trace env pid 2 (1/10) (terminate_attempt pid SIGTERM s)
    have hunfold : terminate_rounds env pid (n + 1) s =
        (if (wait_killed env pid 2 (1/10) (terminate_attempt pid SIGTERM s)).1 then
          (true, (wait_killed env pid 2 (1/10) (terminate_attempt pid SIGTERM s)).2)
        else terminate_rounds env pid n
          (wait_killed env pid 2 (1/10) (terminate_attempt pid SIGTERM s)).2) := rfl
    by_cases hw : (wait_killed env pid 2 (1/10) (terminate_attempt pid SIGTERM s)).1 = true
    · have hstep : terminate_rounds env pid (n + 1) s =
          (true, (wait_killed env pid 2 (1/10) (terminate_attempt pid SIGTERM s)).2) := by
        rw [hunfold, if_pos hw]
      refine ⟨Event.kill "-TERM" pid :: tw, ?_, ?_, ?_, Or.inl ⟨?_, 0, ?_, ?_, ?_⟩⟩
      · rw [hstep]
        simpa [terminate_attempt, SIGTERM] using hwlog
      · rw [hstep]
        simpa [terminate_attempt] using hwsess
      · intro e he
        rcases List.mem_cons.mp he with he | he
        · simp [isQuit, he]
        · exact hwquit e he
      · rw [hstep]
      · simp
      · rw [killsIn_cons_kill, hwkill]
        rfl
      · have := hwiff.mp hw
        simp [this]
    · have hwf : (wait_killed env pid 2 (1/10) (terminate_attempt pid SIGTERM s)).1 = false := by
        simpa using hw
      have hstep : terminate_rounds env pid (n + 1) s =
          terminate_rounds env pid n
            (wait_killed env pid 2 (1/10) (terminate_attempt pid SIGTERM s)).2 := by
        rw [hunfold, if_neg hw]
      obtain ⟨tr, hrlog, hrsess, hrquit, hrcase⟩ :=
        ih (wait_killed env pid 2 (1/10) (terminate_attempt pid SIGTERM s)).2
      have hnomem : Event.check pid false ∉ tw := fun hmem => hw (hwiff.mpr hmem)
      refine ⟨Event.kill "-TERM" pid :: (tw ++ tr), ?_, ?_, ?_, ?_⟩
      · rw [hstep, hrlog, hwlog]
        simp [terminate_attempt, SIGTERM]
      · rw [hstep, hrsess, hwsess]
        rfl
      · intro e he
        rcases List.mem_cons.mp he with he | he
        · simp [isQuit, he]
        rcases List.mem_append.mp he with he | he
        · exact hwquit e he
        · exact hrquit e he
      · rcases hrcase with ⟨htrue, m, hm, hkills, hmem⟩ | ⟨hfalse, hkills, hmem⟩
        · refine Or.inl ⟨by rw [hstep]; exact htrue, m + 1, by omega, ?_, ?_⟩
          · rw [killsIn_cons_kill, killsIn_append, hwkill, hkills]
            simp [List.replicate_succ]
          · simp [hmem]
        · refine Or.inr ⟨by rw [hstep]; exact hfalse, ?_, ?_⟩
          · rw [killsIn_cons_kill, killsIn_append, hwkill, hkills]
            simp [List.replicate_succ]
          · intro hmem2
            rcases List.mem_cons.mp hmem2 with he | he
            · exact absurd he (by simp)
            rcases List.mem_append.mp he with he | he
            · exact hnomem he
            · exact hmem he

/-- Full trace of one termination ladder: the log grows by a tail that
contains no quit command, all of whose kill events target `pid` (`c` of
them, `1 ≤ c ≤ 4`); the session listing is untouched.  Moreover either the
ladder returned `true` with `m + 1 ≤ 3` TERM sends and no KILL, or it sent
exactly 3 TERMs followed by one KILL and its result is `true` exactly when
some liveness check of the run observed the pid absent. -/
theorem terminate_loop_trace (env : Env) (pid : ℕ) (s : St) :
    ∃ tail c,
      (terminate_loop env pid s).2.log = s.log ++ tail ∧
      (terminate_loop env pid s).2.sessions = s.sessions ∧
      (∀ e ∈ tail, isQuit e = false) ∧
      1 ≤ c ∧ c ≤ 4 ∧ killPids tail = List.replicate c pid ∧
      (((terminate_loop env pid s).1 = true ∧
          ∃ m, m < 3 ∧ killsIn tail = List.replicate (m + 1) ("-TERM", pid)) ∨
       (killsIn tail = List.replicate 3 ("-TERM", pid) ++ [("-KILL", pid)] ∧
          ((terminate_loop env pid s).1 = true ↔ Event.check pid false ∈ tail))) := by
  obtain ⟨tr, hrlog, hrsess, hrquit, hrcase⟩ := terminate_rounds_trace env pid 3 s
  rcases hrcase with ⟨htrue, m, hm, hkills, _⟩ | ⟨hfalse, hkills, hmem⟩
  · have hstep : terminate_loop env pid s = terminate_rounds env pid 3 s := by
      rw [terminate_loop, if_pos htrue]
    refine ⟨tr, m + 1, by rw [hstep]; exact hrlog, by rw [hstep]; exact hrsess, hrquit,
      by omega, by omega, ?_, Or.inl ⟨by rw [hstep]; exact htrue, m, hm, hkills⟩⟩
    rw [killPids, hkills]
    simp
  · have hstep : terminate_loop env pid s =
        wait_killed env pid (1/2) (1/10)
          (terminate_attempt pid SIGKILL (terminate_rounds env pid 3 s).2) := by
      rw [terminate_loop, if_neg (by simp [hfalse])]
    obtain ⟨tw, hwlog, hwsess, hwkill, hwquit, hwiff⟩ :=
      wait_killed_trace env pid (1/2) (1/10)
        (terminate_attempt pid SIGKILL (terminate_rounds env pid 3 s).2)
    refine ⟨tr ++ Event.kill "-KILL" pid :: tw, 4, ?_, ?_, ?_, by omega, by omega, ?_, ?_⟩
    · rw [hstep, hwlog]
      simp only [terminate_attempt, SIGKILL]
      rw [hrlog]
      simp
    · rw [hstep, hwsess]
      simpa [terminate_attempt] using hrsess
    · intro e he
      rcases List.mem_append.mp he with he | he
      · exact hrquit e he
      rcases List.mem_cons.mp he with he | he
      · simp [isQuit, he]
      · exact hwquit e he
    · rw [killPids, killsIn_append, killsIn_cons_kill, hwkill, hkills]
      simp [List.replicate_succ]
    · refine Or.inr ⟨?_, ?_⟩
      · rw [killsIn_append, killsIn_cons_kill, hwkill, hkills]
      · rw [hstep, hwiff]
        constructor
        · intro h
          exact List.mem_append.mpr (Or.inr (List.mem_cons.mpr (Or.inr h)))
        · intro h
          rcases List.mem_append.mp h with h | h
          · exact absurd h hmem
          rcases List.mem_cons.mp h with h | h
          · exact absurd h (by simp)
          · exact h

/-- Trace of the cleanup stage: the pids are laddered in order; a prefix
`pref` of the list is processed (all of it when the stage returns `true`),
the kill targets are the concatenation of one nonempty block per processed
pid, in list order, and the session listing survives untouched. -/
theorem cleanup_loop_trace (env : Env) :
    ∀ (pids : List ℕ) (s : St),
    ∃ tail pref suff counts,
      pids = pref ++ suff ∧
      counts.length = pref.length ∧
      (∀ c ∈ counts, 1 ≤ c) ∧
      (cleanup_loop env pids s).2.log = s.log ++ tail ∧
      (cleanup_loop env pids s).2.sessions = s.sessions ∧
      (∀ e ∈ tail, isQuit e = false) ∧
      killPids tail = (List.zipWith (fun p c => List.replicate c p) pref counts).flatten ∧
      ((cleanup_loop env pids s).1 = true → suff = []) := by
  intro pids
  induction pids with
  | nil =>
    intro s
    exact ⟨[], [], [], [], rfl, rfl, by simp, by simp [cleanup_loop], by simp [cleanup_loop],
      by simp, by simp [killPids], fun _ => rfl⟩
  | cons p rest ih =>
    intro s
    obtain ⟨tl, c, hllog, hlsess, hlquit, hc1, _, hlkp, _⟩ := terminate_loop_trace env p s
    by_cases hl : (terminate_loop env p s).1 = true
    · have hstep : cleanup_loop env (p :: rest) s =
          cleanup_loop env rest (terminate_loop env p s).2 := by
        rw [cleanup_loop, if_pos hl]
      obtain ⟨tr, pref, suff, counts, hsplit, hlen, hcts, hrlog, hrsess, hrquit, hrkp, hrsuff⟩ :=
        ih (terminate_loop env p s).2
      refine ⟨tl ++ tr, p :: pref, suff, c :: counts, by rw [hsplit]; rfl, by simp [hlen],
        ?_, ?_, ?_, ?_, ?_, ?_⟩
      · intro x hx
        rcases List.mem_cons.mp hx with hx | hx
        · omega
        · exact hcts x hx
      · rw [hstep, hrlog, hllog]
        simp
      · rw [hstep, hrsess, hlsess]
      · intro e he
        rcases List.mem_append.mp he with he | he
        · exact hlquit e he
        · exact hrquit e he
      · rw [killPids, killsIn_append, List.map_append]
        have h1 : (killsIn tl).map Prod.snd = List.replicate c p := hlkp
        have h2 : (killsIn tr).map Prod.snd = _ := hrkp
        rw [h1, h2]
        simp
      · intro hres
        exact hrsuff (by rw [← hstep]; exact hres)
    · have hlf : (terminate_loop env p s).1 = false := by simpa using hl
      have hstep : cleanup_loop env (p :: rest) s = (false, (terminate_loop env p s).2) := by
        rw [cleanup_loop, if_neg hl]
      refine ⟨tl, [p], rest, [c], rfl, rfl, ?_, by rw [hstep]; exact hllog,
        by rw [hstep]; exact hlsess, hlquit, ?_, ?_⟩
      · intro x hx
        rcases List.mem_cons.mp hx with hx | hx
        · omega
        · exact absurd hx (List.not_mem_nil x)
      · rw [killPids] at hlkp ⊢
        rw [hlkp]
        simp
      · intro hres
        rw [hstep] at hres
        exact absurd hres (by simp)

/-- A ladder whose very first liveness check sees the pid absent: one TERM
send, one check, done. -/
theorem terminate_loop_first_check (env : Env) (pid : ℕ) (s : St)
    (hdl : pid ∉ (env.table s.time).map Prod.snd) :
    terminate_loop env pid s =
      (true, { s with log := s.log ++ [Event.kill "-TERM" pid, Event.check pid false] }) := by
  have hw : wait_killed env pid 2 (1/10) (terminate_attempt pid SIGTERM s) =
      (true, { s with log := s.log ++ [Event.kill "-TERM" pid, Event.check pid false] }) := by
    rw [wait_killed_dead_now env pid 2 (1/10) (terminate_attempt pid SIGTERM s)
      hdl (by norm_num) (by norm_num)]
    simp [terminate_attempt, SIGTERM]
  have h3 : terminate_rounds env pid 3 s =
      (if (wait_killed env pid 2 (1/10) (terminate_attempt pid SIGTERM s)).1 then
        (true, (wait_killed env pid 2 (1/10) (terminate_attempt pid SIGTERM s)).2)
      else terminate_rounds env pid 2
        (wait_killed env pid 2 (1/10) (terminate_attempt pid SIGTERM s)).2) := rfl
  have hr : terminate_rounds env pid 3 s =
      (true, { s with log := s.log ++ [Event.kill "-TERM" pid, Event.check pid false] }) := by
    rw [h3, hw]
    rfl
  rw [terminate_loop, hr]
  rfl

/-- A wait whose first check sees the pid alive and whose second check
(after one sleep) sees it absent, for budgets worth at least two
iterations. -/
theorem wait_killed_second_check (env : Env) (pid : ℕ) (maxwait step : ℚ) (s : St) (n : ℕ)
    (hfuel : Int.toNat ⌈maxwait / step⌉ = n + 2)
    (h0 : 0 < maxwait) (h1 : 0 < maxwait - step)
    (hal : pid ∈ (env.table s.time).map Prod.snd)
    (hdl : pid ∉ (env.table (s.time + step)).map Prod.snd) :
    wait_killed env pid maxwait step s =
      (true, { s with
                time := s.time + step,
                log := s.log ++ [Event.check pid true, Event.sleep step,
                  Event.check pid false] }) := by
  rw [wait_killed, hfuel]
  rw [wait_go_step_alive env pid step maxwait (n + 1) s h0 hal]
  rw [wait_go_step_dead env pid step (maxwait - step) n
    { s with
       time := s.time + step,
       log := s.log ++ [Event.check pid true, Event.sleep step] } h1 hdl]
  simp

/-- A full ladder on a pid that is alive at the current instant and gone
one poll interval later: one TERM send, a positive check, one sleep, a
negative check, result `true`. -/
theorem terminate_loop_second_check (env : Env) (pid : ℕ) (s : St)
    (hal : pid ∈ (env.table s.time).map Prod.snd)
    (hdl : pid ∉ (env.table (s.time + 1/10)).map Prod.snd) :
    terminate_loop env pid s =
      (true, { s with
                time := s.time + 1/10,
                log := s.log ++ [Event.kill "-TERM" pid, Event.check pid true,
                  Event.sleep (1/10), Event.check pid false] }) := by
  have hfuel : Int.toNat ⌈(2:ℚ) / (1/10)⌉ = 18 + 2 := by
    have h20 : ⌈(2:ℚ) / (1/10)⌉ = 20 := by norm_num
    rw [h20]
    rfl
  have hw : wait_killed env pid 2 (1/10) (terminate_attempt pid SIGTERM s) =
      (true, { s with
                time := s.time + 1/10,
                log := s.log ++ [Event.kill "-TERM" pid, Event.check pid true,
                  Event.sleep (1/10), Event.check pid false] }) := by
    rw [wait_killed_second_check env pid 2 (1/10) (terminate_attempt pid SIGTERM s) 18
      hfuel (by norm_num) (by norm_num) hal hdl]
    simp [terminate_attempt, SIGTERM]
  have h3 : terminate_rounds env pid 3 s =
      (if (wait_killed env pid 2 (1/10) (terminate_attempt pid SIGTERM s)).1 then
        (true, (wait_killed env pid 2 (1/10) (terminate_attempt pid SIGTERM s)).2)
      else terminate_rounds env pid 2
        (wait_killed env pid 2 (1/10) (terminate_attempt pid SIGTERM s)).2) := rfl
  have hr : terminate_rounds env pid 3 s =
      (true, { s with
                time := s.time + 1/10,
                log := s.log ++ [Event.kill "-TERM" pid, Event.check pid true,
                  Event.sleep (1/10), Event.check pid false] }) := by
    rw [h3, hw]
    rfl
  rw [terminate_loop, hr]
  rfl

/-- Unfolding of `terminate` once the process tree has been resolved. -/
theorem terminate_unfold (env : Env) (modules : List (String × ModuleDesc))
    (module_name : String) (s : St) (pid bash_pid main_pid : ℕ) (desc : ModuleDesc)
    (hs : get_pid module_name s = some pid)
    (hb : (get_child_pid env pid s).head? = some bash_pid)
    (hm : (get_child_pid env bash_pid s).head? = some main_pid)
    (hd : modules.lookup module_name = some desc) :
    terminate env modules module_name s =
      (let cleanup_pids := (desc.cleanup.getD (fun _ _ _ => [])) main_pid env s
       let r1 := terminate_loop env main_pid s
       if r1.1 then
         let rc := cleanup_loop env cleanup_pids r1.2
         if rc.1 then
           let r2 := terminate_loop env bash_pid rc.2
           if r2.1 then
             let s4 := screen_quit env module_name r2.2
             some (!check_screen_pid pid s4, s4)
           else some (false, r2.2)
         else some (false, rc.2)
       else some (false, r1.2)) := by
  simp only [terminate, hs, hb, hm, hd]

/-! ### Claim theorems -/

/-- C1: for every process id, `terminate_loop` performs at most 3 rounds of
(send SIGTERM, wait up to 2.0 s), returning `true` as soon as a round
confirms death (after `m + 1 ≤ 3` TERM sends and no KILL); if the process
survives all 3 rounds it sends exactly one SIGKILL after the three TERMs,
waits up to 0.5 s, and returns `true` iff some liveness check of the run
confirmed the process absent by the end, `false` otherwise. -/
theorem C1_terminate_loop_ladder (env : Env) (pid : ℕ) (s : St) :
    ∃ tail,
      (terminate_loop env pid s).2.log = s.log ++ tail ∧
      (((terminate_loop env pid s).1 = true ∧
          ∃ m, m < 3 ∧ killsIn tail = List.replicate (m + 1) ("-TERM", pid)) ∨
       (killsIn tail = List.replicate 3 ("-TERM", pid) ++ [("-KILL", pid)] ∧
          ((terminate_loop env pid s).1 = true ↔ Event.check pid false ∈ tail))) := by
  obtain ⟨tail, c, hlog, _, _, _, _, _, hcase⟩ := terminate_loop_trace env pid s
  exact ⟨tail, hlog, hcase⟩

/-- C4: a process id absent from the process table at all times is
confirmed dead by the very first round: `terminate_loop` sends exactly one
signal (the graceful SIGTERM, whose delivery to the dead pid the source
silently ignores), the first liveness check confirms death, and the result
is `true` — no second round, no SIGKILL, no sleep, no time passes. -/
theorem C4_already_dead_one_signal (env : Env) (pid : ℕ) (s : St)
    (habs : ∀ t, pid ∉ (env.table t).map Prod.snd) :
    terminate_loop env pid s =
      (true, { s with log := s.log ++ [Event.kill "-TERM" pid, Event.check pid false] }) := by
  have hw : wait_killed env pid 2 (1/10) (terminate_attempt pid SIGTERM s) =
      (true, { s with log := s.log ++ [Event.kill "-TERM" pid, Event.check pid false] }) := by
    rw [wait_killed_dead_now env pid 2 (1/10) (terminate_attempt pid SIGTERM s)
      (habs _) (by norm_num) (by norm_num)]
    simp [terminate_attempt, SIGTERM]
  have hr : terminate_rounds env pid 3 s =
      (true, { s with log := s.log ++ [Event.kill "-TERM" pid, Event.check pid false] }) := by
    have h3 : terminate_rounds env pid 3 s =
        (if (wait_killed env pid 2 (1/10) (terminate_attempt pid SIGTERM s)).1 then
          (true, (wait_killed env pid 2 (1/10) (terminate_attempt pid SIGTERM s)).2)
        else terminate_rounds env pid 2
          (wait_killed env pid 2 (1/10) (terminate_attempt pid SIGTERM s)).2) := rfl
    rw [h3, hw]
    rfl
  rw [terminate_loop, hr]
  rfl

/-- Witness for C4 at a concrete input: pid 5 with an always-empty process
table. -/
def env4 : Env := ⟨fun _ => [], fun _ l => l⟩

/-- Initial state for the concrete runs: time 0, no sessions, empty log. -/
def st0 : St := ⟨0, [], []⟩

theorem C4_already_dead_one_signal_witness :
    (∀ t, 5 ∉ (env4.table t).map Prod.snd) ∧
    terminate_loop env4 5 st0 =
      (true, { st0 with log := st0.log ++ [Event.kill "-TERM" 5, Event.check 5 false] }) := by
  have h : ∀ t, 5 ∉ (env4.table t).map Prod.snd := by
    intro t
    simp [env4]
  exact ⟨h, C4_already_dead_one_signal env4 5 st0 h⟩

/-- C5: a process id not present as a child id in the current snapshot is
reported dead by `check_running_pid`, and `wait_killed` with any strictly
positive budget (and positive step, as at every call site) returns `true`
on its very first iteration: one liveness check, no sleep, no time
passes. -/
theorem C5_absent_pid_immediate (env : Env) (pid : ℕ) (maxwait step : ℚ) (s : St)
    (hdead : pid ∉ (env.table s.time).map Prod.snd)
    (hmw : 0 < maxwait) (hstep : 0 < step) :
    (check_running_pid env pid s).1 = false ∧
    wait_killed env pid maxwait step s =
      (true, { s with log := s.log ++ [Event.check pid false] }) := by
  constructor
  · simp only [check_running_pid, get_running_gid_pid]
    exact decide_eq_false hdead
  · exact wait_killed_dead_now env pid maxwait step s hdead hmw hstep

theorem C5_absent_pid_immediate_witness :
    (5 ∉ (env4.table st0.time).map Prod.snd) ∧ (0 : ℚ) < 2 ∧ (0 : ℚ) < 1/10 ∧
    ((check_running_pid env4 5 st0).1 = false ∧
      wait_killed env4 5 2 (1/10) st0 =
        (true, { st0 with log := st0.log ++ [Event.check 5 false] })) := by
  have h : 5 ∉ (env4.table st0.time).map Prod.snd := by simp [env4]
  exact ⟨h, by norm_num, by norm_num,
    C5_absent_pid_immediate env4 5 2 (1/10) st0 h (by norm_num) (by norm_num)⟩

/-- C10: with a non-positive budget `wait_killed` returns `false` at once:
the state — hence the log — is untouched, so not a single liveness check
or sleep happens, even if the process is already absent (that is the
`while remain > 0.` guard failing on the first test). -/
theorem C10_nonpositive_budget_false (env : Env) (pid : ℕ) (maxwait step : ℚ) (s : St)
    (h : maxwait ≤ 0) :
    wait_killed env pid maxwait step s = (false, s) := by
  rw [wait_killed]
  cases hf : Int.toNat ⌈maxwait / step⌉ with
  | zero => rw [wait_go_zero]
  | succ n =>
    rw [wait_go_succ]
    rw [if_neg (not_lt.mpr h)]

theorem C10_nonpositive_budget_false_witness :
    (0 : ℚ) ≤ 0 ∧ wait_killed env4 5 0 (1/10) st0 = (false, st0) :=
  ⟨le_refl 0, C10_nonpositive_budget_false env4 5 0 (1/10) st0 (le_refl 0)⟩

/-- A pid that is a child in every snapshot is never confirmed dead by the
wait loop. -/
theorem wait_go_alive_all (env : Env) (pid : ℕ) (step : ℚ)
    (halive : ∀ t, pid ∈ (env.table t).map Prod.snd) :
    ∀ (fuel : ℕ) (remain : ℚ) (s : St),
    (wait_go env pid step fuel remain s).1 = false := by
  intro fuel
  induction fuel with
  | zero => intro remain s; rw [wait_go_zero]
  | succ n ih =>
    intro remain s
    by_cases h0 : 0 < remain
    · rw [wait_go_step_alive env pid step remain n s h0 (halive _)]
      exact ih _ _
    · rw [wait_go_succ, if_neg h0]

/-- A pid that is a child in every snapshot survives every `wait_killed`. -/
theorem wait_killed_alive_all (env : Env) (pid : ℕ) (maxwait step : ℚ) (s : St)
    (halive : ∀ t, pid ∈ (env.table t).map Prod.snd) :
    (wait_killed env pid maxwait step s).1 = false :=
  wait_go_alive_all env pid step halive _ maxwait s

/-- A pid that is a child in every snapshot survives every graceful
round. -/
theorem terminate_rounds_alive_all (env : Env) (pid : ℕ)
    (halive : ∀ t, pid ∈ (env.table t).map Prod.snd) :
    ∀ (n : ℕ) (s : St), (terminate_rounds env pid n s).1 = false := by
  intro n
  induction n with
  | zero => intro s; rfl
  | succ n ih =>
    intro s
    have hunfold : terminate_rounds env pid (n + 1) s =
        (if (wait_killed env pid 2 (1/10) (terminate_attempt pid SIGTERM s)).1 then
          (true, (wait_killed env pid 2 (1/10) (terminate_attempt pid SIGTERM s)).2)
        else terminate_rounds env pid n
          (wait_killed env pid 2 (1/10) (terminate_attempt pid SIGTERM s)).2) := rfl
    rw [hunfold, wait_killed_alive_all env pid 2 (1/10) _ halive]
    simpa using ih _

/-- A pid that is a child in every snapshot survives the whole ladder. -/
theorem terminate_loop_alive_all (env : Env) (pid : ℕ) (s : St)
    (halive : ∀ t, pid ∈ (env.table t).map Prod.snd) :
    (terminate_loop env pid s).1 = false := by
  rw [terminate_loop]
  rw [terminate_rounds_alive_all env pid halive 3 s]
  simpa using wait_killed_alive_all env pid (1/2) (1/10) _ halive

/-- Environment in which pid 7 never dies: it is a child in every
snapshot. -/
def envImmortal : Env := ⟨fun _ => [(0, 7)], fun _ l => l⟩

/-- C7: the claim (echoing the source's own module docstring, "killed
softly in a INT - TERM - KILL chain") says a full ladder run delivers the
graceful-interrupt signal first, then terminate, then kill; the code never
sends SIGINT — it is only the never-used default of `terminate_attempt`.
On a process that survives every wait, the full `terminate_loop` run sends
exactly TERM, TERM, TERM, KILL: no interrupt signal anywhere. -/
theorem C7_no_interrupt_in_ladder (env : Env) (pid : ℕ) (s : St)
    (halive : ∀ t, pid ∈ (env.table t).map Prod.snd) :
    (terminate_loop env pid s).1 = false ∧
    ∃ tail, (terminate_loop env pid s).2.log = s.log ++ tail ∧
      killsIn tail = [("-TERM", pid), ("-TERM", pid), ("-TERM", pid), ("-KILL", pid)] ∧
      ∀ q ∈ killsIn tail, q.1 ≠ "-INT" := by
  have hres := terminate_loop_alive_all env pid s halive
  obtain ⟨tail, c, hlog, _, _, _, _, _, hcase⟩ := terminate_loop_trace env pid s
  rcases hcase with ⟨htrue, _⟩ | ⟨hkills, _⟩
  · rw [hres] at htrue
    exact absurd htrue (by simp)
  · refine ⟨hres, tail, hlog, ?_, ?_⟩
    · rw [hkills]
      rfl
    · intro q hq
      rw [hkills] at hq
      have : q = ("-TERM", pid) ∨ q = ("-KILL", pid) := by
        rcases List.mem_append.mp hq with h | h
        · exact Or.inl (List.eq_of_mem_replicate h)
        · exact Or.inr (List.mem_singleton.mp h)
      rcases this with h | h <;> rw [h] <;> simp

theorem C7_no_interrupt_in_ladder_witness :
    (∀ t, 7 ∈ (envImmortal.table t).map Prod.snd) ∧
    ((terminate_loop envImmortal 7 st0).1 = false ∧
      ∃ tail, (terminate_loop envImmortal 7 st0).2.log = st0.log ++ tail ∧
        killsIn tail = [("-TERM", 7), ("-TERM", 7), ("-TERM", 7), ("-KILL", 7)] ∧
        ∀ q ∈ killsIn tail, q.1 ≠ "-INT") := by
  have h : ∀ t, 7 ∈ (envImmortal.table t).map Prod.snd := by
    intro t
    simp [envImmortal]
  exact ⟨h, C7_no_interrupt_in_ladder envImmortal 7 st0 h⟩

/-- C8: if the session name is absent from the listing, or the session's
root process has no child (no shell), or the shell has no child (no
service), `terminate` returns `False` with the state — log included —
completely untouched: no signal is sent and no exception escapes (the
result is `some`, never the `KeyError` `none`). -/
theorem C8_missing_tree_returns_false (env : Env) (modules : List (String × ModuleDesc))
    (module_name : String) (s : St)
    (h : get_pid module_name s = none ∨
      (∃ pid, get_pid module_name s = some pid ∧ get_child_pid env pid s = []) ∨
      (∃ pid bash_pid bs, get_pid module_name s = some pid ∧
        get_child_pid env pid s = bash_pid :: bs ∧ get_child_pid env bash_pid s = [])) :
    terminate env modules module_name s = some (false, s) := by
  rcases h with h | ⟨pid, hp, hc⟩ | ⟨pid, bash_pid, bs, hp, hc, hcb⟩
  · rw [terminate, h]
  · simp only [terminate, hp, hc, List.head?]
  · simp only [terminate, hp, hc, List.head?, hcb]

theorem C8_missing_tree_returns_false_witness :
    (get_pid "nosuch" st0 = none ∨
      (∃ pid, get_pid "nosuch" st0 = some pid ∧ get_child_pid env4 pid st0 = []) ∨
      (∃ pid bash_pid bs, get_pid "nosuch" st0 = some pid ∧
        get_child_pid env4 pid st0 = bash_pid :: bs ∧ get_child_pid env4 bash_pid st0 = [])) ∧
    terminate env4 [] "nosuch" st0 = some (false, st0) := by
  have h : get_pid "nosuch" st0 = none := rfl
  exact ⟨Or.inl h, C8_missing_tree_returns_false env4 [] "nosuch" st0 (Or.inl h)⟩

/-- C2 (amended): whenever the process tree of a module resolves (session
pid, shell = its first child, service = the shell's first child) and the
module descriptor exists, `terminate` returns without exception and its
log tail factors into consecutive stages: first a nonempty block of kills
all targeting the service pid, then one nonempty kill block per processed
cleanup pid — a prefix of the cleanup list, taken in order, all of it when
reached and successful — then kills targeting the shell pid, and a quit
command at most at the very end; if the service ladder fails nothing after
its own block happens (no cleanup kill, no shell kill, no quit), and a
quit implies every cleanup pid was processed and the shell was laddered. -/
theorem C2_teardown_order (env : Env) (modules : List (String × ModuleDesc))
    (module_name : String) (s : St) (pid bash_pid main_pid : ℕ) (desc : ModuleDesc)
    (hs : get_pid module_name s = some pid)
    (hb : (get_child_pid env pid s).head? = some bash_pid)
    (hm : (get_child_pid env bash_pid s).head? = some main_pid)
    (hd : modules.lookup module_name = some desc) :
    ∃ b s1 tail,
      terminate env modules module_name s = some (b, s1) ∧
      s1.log = s.log ++ tail ∧
      ∃ cM pref suff counts cB,
        1 ≤ cM ∧
        (desc.cleanup.getD (fun _ _ _ => [])) main_pid env s = pref ++ suff ∧
        counts.length = pref.length ∧
        (∀ c ∈ counts, 1 ≤ c) ∧
        killPids tail =
          List.replicate cM main_pid ++
            ((List.zipWith (fun p c => List.replicate c p) pref counts).flatten ++
              List.replicate cB bash_pid) ∧
        ((terminate_loop env main_pid s).1 = false →
          pref = [] ∧ cB = 0 ∧ Event.quit module_name ∉ tail) ∧
        ((∀ e ∈ tail, isQuit e = false) ∨
          (suff = [] ∧ 1 ≤ cB ∧
            ∃ t0, tail = t0 ++ [Event.quit module_name] ∧ ∀ e ∈ t0, isQuit e = false)) := by
  have hterm : terminate env modules module_name s =
      (let cleanup_pids := (desc.cleanup.getD (fun _ _ _ => [])) main_pid env s
       let r1 := terminate_loop env main_pid s
       if r1.1 then
         let rc := cleanup_loop env cleanup_pids r1.2
         if rc.1 then
           let r2 := terminate_loop env bash_pid rc.2
           if r2.1 then
             let s4 := screen_quit env module_name r2.2
             some (!check_screen_pid pid s4, s4)
           else some (false, r2.2)
         else some (false, rc.2)
       else some (false, r1.2)) := by
    simp only [terminate, hs, hb, hm, hd]
  obtain ⟨tM, cM, hMlog, _, hMquit, hcM1, _, hMkp, _⟩ := terminate_loop_trace env main_pid s
  by_cases h1 : (terminate_loop env main_pid s).1 = true
  · obtain ⟨tC, pref, suff, counts, hCsplit, hClen, hCcts, hClog, _, hCquit, hCkp, hCsuff⟩ :=
      cleanup_loop_trace env ((desc.cleanup.getD (fun _ _ _ => [])) main_pid env s)
        (terminate_loop env main_pid s).2
    by_cases hc : (cleanup_loop env ((desc.cleanup.getD (fun _ _ _ => [])) main_pid env s)
        (terminate_loop env main_pid s).2).1 = true
    · obtain ⟨tB, cB, hBlog, _, hBquit, hcB1, _, hBkp, _⟩ :=
        terminate_loop_trace env bash_pid
          (cleanup_loop env ((desc.cleanup.getD (fun _ _ _ => [])) main_pid env s)
            (terminate_loop env main_pid s).2).2
      by_cases h2 : (terminate_loop env bash_pid
          (cleanup_loop env ((desc.cleanup.getD (fun _ _ _ => [])) main_pid env s)
            (terminate_loop env main_pid s).2).2).1 = true
      · -- every stage succeeded: quit issued at the very end
        have hrun : terminate env modules module_name s =
            some (!check_screen_pid pid (screen_quit env module_name
                (terminate_loop env bash_pid
                  (cleanup_loop env ((desc.cleanup.getD (fun _ _ _ => [])) main_pid env s)
                    (terminate_loop env main_pid s).2).2).2),
              screen_quit env module_name
                (terminate_loop env bash_pid
                  (cleanup_loop env ((desc.cleanup.getD (fun _ _ _ => [])) main_pid env s)
                    (terminate_loop env main_pid s).2).2).2) := by
          rw [hterm]
          simp only [h1, hc, h2, if_pos]
        refine ⟨_, _, tM ++ (tC ++ (tB ++ [Event.quit module_name])), hrun, ?_,
          cM, pref, suff, counts, cB, hcM1, hCsplit, hClen, hCcts, ?_, ?_, ?_⟩
        · simp only [screen_quit]
          rw [hBlog, hClog, hMlog]
          simp
        · rw [killPids_append, killPids_append, killPids_append]
          rw [hMkp, hCkp, hBkp]
          simp [killPids]
        · intro hfail
          rw [h1] at hfail
          exact absurd hfail (by simp)
        · refine Or.inr ⟨hCsuff hc, hcB1, tM ++ (tC ++ tB), by simp, ?_⟩
          intro e he
          rcases List.mem_append.mp he with he | he
          · exact hMquit e he
          rcases List.mem_append.mp he with he | he
          · exact hCquit e he
          · exact hBquit e he
      · -- shell ladder failed
        have hrun : terminate env modules module_name s =
            some (false, (terminate_loop env bash_pid
                (cleanup_loop env ((desc.cleanup.getD (fun _ _ _ => [])) main_pid env s)
                  (terminate_loop env main_pid s).2).2).2) := by
          rw [hterm]
          simp only [h1, hc, if_pos]
          rw [if_neg h2]
        refine ⟨_, _, tM ++ (tC ++ tB), hrun, ?_,
          cM, pref, suff, counts, cB, hcM1, hCsplit, hClen, hCcts, ?_, ?_, ?_⟩
        · rw [hBlog, hClog, hMlog]
          simp
        · rw [killPids_append, killPids_append, hMkp, hCkp, hBkp]
        · intro hfail
          rw [h1] at hfail
          exact absurd hfail (by simp)
        · refine Or.inl ?_
          intro e he
          rcases List.mem_append.mp he with he | he
          · exact hMquit e he
          rcases List.mem_append.mp he with he | he
          · exact hCquit e he
          · exact hBquit e he
    · -- cleanup stage failed: no shell kill, no quit
      have hrun : terminate env modules module_name s =
          some (false, (cleanup_loop env ((desc.cleanup.getD (fun _ _ _ => [])) main_pid env s)
              (terminate_loop env main_pid s).2).2) := by
        rw [hterm]
        simp only [h1, if_pos]
        rw [if_neg hc]
      refine ⟨_, _, tM ++ tC, hrun, ?_,
        cM, pref, suff, counts, 0, hcM1, hCsplit, hClen, hCcts, ?_, ?_, ?_⟩
      · rw [hClog, hMlog]
        simp
      · rw [killPids_append, hMkp, hCkp]
        simp
      · intro hfail
        rw [h1] at hfail
        exact absurd hfail (by simp)
      · refine Or.inl ?_
        intro e he
        rcases List.mem_append.mp he with he | he
        · exact hMquit e he
        · exact hCquit e he
  · -- service ladder failed: teardown aborts right there
    have h1f : (terminate_loop env main_pid s).1 = false := by simpa using h1
    have hrun : terminate env modules module_name s =
        some (false, (terminate_loop env main_pid s).2) := by
      rw [hterm]
      rw [if_neg h1]
    refine ⟨_, _, tM, hrun, hMlog,
      cM, [], (desc.cleanup.getD (fun _ _ _ => [])) main_pid env s, [], 0,
      hcM1, rfl, rfl, by simp, ?_, ?_, Or.inl hMquit⟩
    · rw [hMkp]
      simp
    · intro _
      refine ⟨rfl, rfl, ?_⟩
      intro hmem
      have := hMquit _ hmem
      simp [isQuit] at this

/-- C3: with a resolved process tree, if the termination ladder on the
service pid fails, `terminate` returns `False` with exactly the ladder's
final state: every signal of the run targeted the service pid (no
auxiliary or shell ladder began), no session-quit command was issued, the
session listing is untouched and still resolves the module name to its
session pid. -/
theorem C3_service_failure_aborts (env : Env) (modules : List (String × ModuleDesc))
    (module_name : String) (s : St) (pid bash_pid main_pid : ℕ) (desc : ModuleDesc)
    (hs : get_pid module_name s = some pid)
    (hb : (get_child_pid env pid s).head? = some bash_pid)
    (hm : (get_child_pid env bash_pid s).head? = some main_pid)
    (hd : modules.lookup module_name = some desc)
    (hfail : (terminate_loop env main_pid s).1 = false) :
    terminate env modules module_name s = some (false, (terminate_loop env main_pid s).2) ∧
    (terminate_loop env main_pid s).2.sessions = s.sessions ∧
    get_pid module_name (terminate_loop env main_pid s).2 = some pid ∧
    ∃ tail, (terminate_loop env main_pid s).2.log = s.log ++ tail ∧
      (∀ e ∈ tail, isQuit e = false) ∧
      ∃ c, killPids tail = List.replicate c main_pid := by
  obtain ⟨tail, c, hlog, hsess, hquit, _, _, hkp, _⟩ := terminate_loop_trace env main_pid s
  refine ⟨?_, hsess, ?_, tail, hlog, hquit, c, hkp⟩
  · rw [terminate_unfold env modules module_name s pid bash_pid main_pid desc hs hb hm hd]
    simp only
    rw [if_neg (by simp [hfail])]
  · have hrw : get_pid module_name (terminate_loop env main_pid s).2 =
        ((terminate_loop env main_pid s).2.sessions).lookup module_name := rfl
    rw [hrw, hsess]
    exact hs

/-- Fixed world for the C3 witness: the process tree 1 → 2 → 3 exists in
every snapshot, so the service pid 3 survives every ladder. -/
def env3 : Env := ⟨fun _ => [(1, 2), (2, 3)], fun _ l => l⟩

/-- Module descriptor without a cleanup hook, used by the concrete runs. -/
def desc3 : ModuleDesc := ⟨none, "svc", none⟩

/-- Catalog for the C3 witness. -/
def mods3 : List (String × ModuleDesc) := [("m", desc3)]

/-- Start state for the C3 witness: session "m" with pid 1. -/
def st3 : St := ⟨0, [("m", 1)], []⟩

theorem C3_service_failure_aborts_witness :
    (get_pid "m" st3 = some 1 ∧ (get_child_pid env3 1 st3).head? = some 2 ∧
      (get_child_pid env3 2 st3).head? = some 3 ∧ mods3.lookup "m" = some desc3 ∧
      (terminate_loop env3 3 st3).1 = false) ∧
    (terminate env3 mods3 "m" st3 = some (false, (terminate_loop env3 3 st3).2) ∧
      (terminate_loop env3 3 st3).2.sessions = st3.sessions ∧
      get_pid "m" (terminate_loop env3 3 st3).2 = some 1 ∧
      ∃ tail, (terminate_loop env3 3 st3).2.log = st3.log ++ tail ∧
        (∀ e ∈ tail, isQuit e = false) ∧
        ∃ c, killPids tail = List.replicate c 3) := by
  have hs : get_pid "m" st3 = some 1 := rfl
  have hb : (get_child_pid env3 1 st3).head? = some 2 := rfl
  have hm : (get_child_pid env3 2 st3).head? = some 3 := rfl
  have hd : mods3.lookup "m" = some desc3 := rfl
  have hfail : (terminate_loop env3 3 st3).1 = false :=
    terminate_loop_alive_all env3 3 st3 (by intro t; simp [env3])
  exact ⟨⟨hs, hb, hm, hd, hfail⟩,
    C3_service_failure_aborts env3 mods3 "m" st3 1 2 3 desc3 hs hb hm hd hfail⟩

/-- C9 (amended): when the tree resolves and the service, cleanup and
shell stages all succeed, `terminate` issues the session-quit command
(whose outcome it never inspects) as the very last event and then returns
`true` iff the session's root pid is absent from the pids of the freshly
re-queried session listing — the listing as left by the quit command's
arbitrary effect; that freshly re-read listing alone determines the
result. -/
theorem C9_result_is_fresh_pid_check (env : Env) (modules : List (String × ModuleDesc))
    (module_name : String) (s : St) (pid bash_pid main_pid : ℕ) (desc : ModuleDesc)
    (hs : get_pid module_name s = some pid)
    (hb : (get_child_pid env pid s).head? = some bash_pid)
    (hm : (get_child_pid env bash_pid s).head? = some main_pid)
    (hd : modules.lookup module_name = some desc)
    (h1 : (terminate_loop env main_pid s).1 = true)
    (hc : (cleanup_loop env ((desc.cleanup.getD (fun _ _ _ => [])) main_pid env s)
        (terminate_loop env main_pid s).2).1 = true)
    (h2 : (terminate_loop env bash_pid
        (cleanup_loop env ((desc.cleanup.getD (fun _ _ _ => [])) main_pid env s)
          (terminate_loop env main_pid s).2).2).1 = true) :
    ∃ s1, terminate env modules module_name s =
        some (decide (pid ∉ s1.sessions.map Prod.snd), s1) ∧
      s1.sessions = env.quitEffect module_name s.sessions ∧
      ∃ t0, s1.log = s.log ++ t0 ++ [Event.quit module_name] ∧
        ∀ e ∈ t0, isQuit e = false := by
  obtain ⟨tM, _, hMlog, hMsess, hMquit, _, _, _, _⟩ := terminate_loop_trace env main_pid s
  obtain ⟨tC, _, _, _, _, _, _, hClog, hCsess, hCquit, _, _⟩ :=
    cleanup_loop_trace env ((desc.cleanup.getD (fun _ _ _ => [])) main_pid env s)
      (terminate_loop env main_pid s).2
  obtain ⟨tB, _, hBlog, hBsess, hBquit, _, _, _, _⟩ :=
    terminate_loop_trace env bash_pid
      (cleanup_loop env ((desc.cleanup.getD (fun _ _ _ => [])) main_pid env s)
        (terminate_loop env main_pid s).2).2
  have hrun : terminate env modules module_name s =
      some (!check_screen_pid pid (screen_quit env module_name
          (terminate_loop env bash_pid
            (cleanup_loop env ((desc.cleanup.getD (fun _ _ _ => [])) main_pid env s)
              (terminate_loop env main_pid s).2).2).2),
        screen_quit env module_name
          (terminate_loop env bash_pid
            (cleanup_loop env ((desc.cleanup.getD (fun _ _ _ => [])) main_pid env s)
              (terminate_loop env main_pid s).2).2).2) := by
    rw [terminate_unfold env modules module_name s pid bash_pid main_pid desc hs hb hm hd]
    simp only [h1, hc, h2, if_pos]
  refine ⟨screen_quit env module_name
      (terminate_loop env bash_pid
        (cleanup_loop env ((desc.cleanup.getD (fun _ _ _ => [])) main_pid env s)
          (terminate_loop env main_pid s).2).2).2, ?_, ?_, tM ++ (tC ++ tB), ?_, ?_⟩
  · rw [hrun]
    have hbool : (!check_screen_pid pid (screen_quit env module_name
        (terminate_loop env bash_pid
          (cleanup_loop env ((desc.cleanup.getD (fun _ _ _ => [])) main_pid env s)
            (terminate_loop env main_pid s).2).2).2)) =
        decide (pid ∉ (screen_quit env module_name
          (terminate_loop env bash_pid
            (cleanup_loop env ((desc.cleanup.getD (fun _ _ _ => [])) main_pid env s)
              (terminate_loop env main_pid s).2).2).2).sessions.map Prod.snd) :=
      decide_not.symm
    rw [hbool]
  · show env.quitEffect module_name
        (terminate_loop env bash_pid
          (cleanup_loop env ((desc.cleanup.getD (fun _ _ _ => [])) main_pid env s)
            (terminate_loop env main_pid s).2).2).2.sessions =
      env.quitEffect module_name s.sessions
    rw [hBsess, hCsess, hMsess]
  · show (terminate_loop env bash_pid
        (cleanup_loop env ((desc.cleanup.getD (fun _ _ _ => [])) main_pid env s)
          (terminate_loop env main_pid s).2).2).2.log ++ [Event.quit module_name] =
      s.log ++ (tM ++ (tC ++ tB)) ++ [Event.quit module_name]
    rw [hBlog, hClog, hMlog]
    simp
  · intro e he
    rcases List.mem_append.mp he with he | he
    · exact hMquit e he
    rcases List.mem_append.mp he with he | he
    · exact hCquit e he
    · exact hBquit e he

/-- World for the C9 runs: tree 1 → 2 → 3 alive before 0.1 s and gone
afterwards; the quit command replaces the listing with a session of the
same name but a fresh pid 99. -/
def env9 : Env :=
  ⟨fun t => if t < 1/10 then [(1, 2), (2, 3)] else [], fun _ _ => [("m", 99)]⟩

/-- Start state for the C9 runs: session "m" with pid 1. -/
def st9 : St := ⟨0, [("m", 1)], []⟩

/-- Catalog for the C9 runs. -/
def mods9 : List (String × ModuleDesc) := [("m", desc3)]

/-- State after the service ladder of the C9 run. -/
def st9a : St :=
  { st9 with
     time := st9.time + 1/10,
     log := st9.log ++ [Event.kill "-TERM" 3, Event.check 3 true,
       Event.sleep (1/10), Event.check 3 false] }

/-- State after the shell ladder of the C9 run. -/
def st9b : St :=
  { st9a with log := st9a.log ++ [Event.kill "-TERM" 2, Event.check 2 false] }

/-- Final state of the C9 run. -/
def st9c : St := screen_quit env9 "m" st9b

theorem env9_table_start : env9.table st9.time = [(1, 2), (2, 3)] := by
  show (if (0:ℚ) < 1/10 then [(1, 2), (2, 3)] else []) = [(1, 2), (2, 3)]
  rw [if_pos (show (0:ℚ) < 1/10 by norm_num)]

theorem env9_table_later : env9.table (st9.time + 1/10) = [] := by
  show (if (0:ℚ) + 1/10 < 1/10 then [(1, 2), (2, 3)] else []) = []
  rw [if_neg (show ¬((0:ℚ) + 1/10 < 1/10) by norm_num)]

theorem env9_ladder3 : terminate_loop env9 3 st9 = (true, st9a) := by
  have hal : 3 ∈ (env9.table st9.time).map Prod.snd := by
    rw [env9_table_start]
    simp
  have hdl : 3 ∉ (env9.table (st9.time + 1/10)).map Prod.snd := by
    rw [env9_table_later]
    simp
  exact terminate_loop_second_check env9 3 st9 hal hdl

theorem env9_ladder2 : terminate_loop env9 2 st9a = (true, st9b) := by
  have hdl : 2 ∉ (env9.table st9a.time).map Prod.snd := by
    show 2 ∉ (env9.table (st9.time + 1/10)).map Prod.snd
    rw [env9_table_later]
    simp
  exact terminate_loop_first_check env9 2 st9a hdl

theorem env9_cleanup :
    cleanup_loop env9 ((desc3.cleanup.getD (fun _ _ _ => [])) 3 env9 st9)
      (terminate_loop env9 3 st9).2 = (true, st9a) := by
  rw [env9_ladder3]
  rfl

theorem env9_shell :
    terminate_loop env9 2
      (cleanup_loop env9 ((desc3.cleanup.getD (fun _ _ _ => [])) 3 env9 st9)
        (terminate_loop env9 3 st9).2).2 = (true, st9b) := by
  rw [env9_cleanup]
  exact env9_ladder2

theorem env9_resolution :
    get_pid "m" st9 = some 1 ∧ (get_child_pid env9 1 st9).head? = some 2 ∧
    (get_child_pid env9 2 st9).head? = some 3 ∧ mods9.lookup "m" = some desc3 := by
  refine ⟨rfl, ?_, ?_, rfl⟩
  · have h : get_child_pid env9 1 st9 = [2] := by
      show ((env9.table st9.time).filter (fun pr => pr.1 == 1)).map Prod.snd = [2]
      rw [env9_table_start]
      rfl
    rw [h]
    rfl
  · have h : get_child_pid env9 2 st9 = [3] := by
      show ((env9.table st9.time).filter (fun pr => pr.1 == 2)).map Prod.snd = [3]
      rw [env9_table_start]
      rfl
    rw [h]
    rfl

theorem env9_terminate : terminate env9 mods9 "m" st9 = some (true, st9c) := by
  obtain ⟨hs9, hb9, hm9, hd9⟩ := env9_resolution
  have h1 : (terminate_loop env9 3 st9).1 = true := by rw [env9_ladder3]
  have hc : (cleanup_loop env9 ((desc3.cleanup.getD (fun _ _ _ => [])) 3 env9 st9)
      (terminate_loop env9 3 st9).2).1 = true := by rw [env9_cleanup]
  have h2 : (terminate_loop env9 2
      (cleanup_loop env9 ((desc3.cleanup.getD (fun _ _ _ => [])) 3 env9 st9)
        (terminate_loop env9 3 st9).2).2).1 = true := by rw [env9_shell]
  rw [terminate_unfold env9 mods9 "m" st9 1 2 3 desc3 hs9 hb9 hm9 hd9]
  simp only [h1, hc, h2, if_pos]
  rw [env9_shell]
  rfl

theorem C9_result_is_fresh_pid_check_witness :
    (get_pid "m" st9 = some 1 ∧ (get_child_pid env9 1 st9).head? = some 2 ∧
      (get_child_pid env9 2 st9).head? = some 3 ∧ mods9.lookup "m" = some desc3 ∧
      (terminate_loop env9 3 st9).1 = true ∧
      (cleanup_loop env9 ((desc3.cleanup.getD (fun _ _ _ => [])) 3 env9 st9)
        (terminate_loop env9 3 st9).2).1 = true ∧
      (terminate_loop env9 2
        (cleanup_loop env9 ((desc3.cleanup.getD (fun _ _ _ => [])) 3 env9 st9)
          (terminate_loop env9 3 st9).2).2).1 = true) ∧
    (∃ s1, terminate env9 mods9 "m" st9 =
        some (decide (1 ∉ s1.sessions.map Prod.snd), s1) ∧
      s1.sessions = env9.quitEffect "m" st9.sessions ∧
      ∃ t0, s1.log = st9.log ++ t0 ++ [Event.quit "m"] ∧
        ∀ e ∈ t0, isQuit e = false) := by
  obtain ⟨hs9, hb9, hm9, hd9⟩ := env9_resolution
  have h1 : (terminate_loop env9 3 st9).1 = true := by rw [env9_ladder3]
  have hc : (cleanup_loop env9 ((desc3.cleanup.getD (fun _ _ _ => [])) 3 env9 st9)
      (terminate_loop env9 3 st9).2).1 = true := by rw [env9_cleanup]
  have h2 : (terminate_loop env9 2
      (cleanup_loop env9 ((desc3.cleanup.getD (fun _ _ _ => [])) 3 env9 st9)
        (terminate_loop env9 3 st9).2).2).1 = true := by rw [env9_shell]
  exact ⟨⟨hs9, hb9, hm9, hd9, h1, hc, h2⟩,
    C9_result_is_fresh_pid_check env9 mods9 "m" st9 1 2 3 desc3 hs9 hb9 hm9 hd9 h1 hc h2⟩

/-- C9 counterexample to the claim as stated: after the quit command the
freshly re-read listing still contains the session NAME "m" (now with pid
99), yet `terminate` returns `true` — the code's final check looks for the
original PID among the listed pids, not for the name, so "returns true iff
the session name is no longer present" is false on this input. -/
theorem C9_name_check_cex :
    terminate env9 mods9 "m" st9 = some (true, st9c) ∧
    List.lookup "m" st9c.sessions = some 99 :=
  ⟨env9_terminate, rfl⟩

/-- The spec's fabricated world for C2: process table (1,2), (2,3), (3,4)
and session mapping "svc" → 1.  Processes 3 and 2 die one poll interval
after being signalled; the quit command removes the named session. -/
def env2 : Env :=
  ⟨fun t =>
    if t < 1/10 then [(1, 2), (2, 3), (3, 4)]
    else if t < 2/10 then [(1, 2), (3, 4)]
    else [(3, 4)],
   fun n l => l.filter (fun pr => pr.1 != n)⟩

/-- Start state for the C2 runs: session "svc" with pid 1. -/
def st2 : St := ⟨0, [("svc", 1)], []⟩

/-- Catalog for the C2 runs. -/
def mods2 : List (String × ModuleDesc) := [("svc", desc3)]

/-- State after the service (pid 3) ladder of the C2 run. -/
def st2a : St :=
  { st2 with
     time := st2.time + 1/10,
     log := st2.log ++ [Event.kill "-TERM" 3, Event.check 3 true,
       Event.sleep (1/10), Event.check 3 false] }

/-- State after the shell (pid 2) ladder of the C2 run. -/
def st2b : St :=
  { st2a with
     time := st2a.time + 1/10,
     log := st2a.log ++ [Event.kill "-TERM" 2, Event.check 2 true,
       Event.sleep (1/10), Event.check 2 false] }

/-- Final state of the C2 run. -/
def st2c : St := screen_quit env2 "svc" st2b

theorem env2_table_start : env2.table st2.time = [(1, 2), (2, 3), (3, 4)] := by
  show (if (0:ℚ) < 1/10 then [(1, 2), (2, 3), (3, 4)]
    else if (0:ℚ) < 2/10 then [(1, 2), (3, 4)] else [(3, 4)]) = [(1, 2), (2, 3), (3, 4)]
  rw [if_pos (show (0:ℚ) < 1/10 by norm_num)]

theorem env2_table_mid : env2.table (st2.time + 1/10) = [(1, 2), (3, 4)] := by
  show (if (0:ℚ) + 1/10 < 1/10 then [(1, 2), (2, 3), (3, 4)]
    else if (0:ℚ) + 1/10 < 2/10 then [(1, 2), (3, 4)] else [(3, 4)]) = [(1, 2), (3, 4)]
  rw [if_neg (show ¬((0:ℚ) + 1/10 < 1/10) by norm_num),
    if_pos (show (0:ℚ) + 1/10 < 2/10 by norm_num)]

theorem env2_table_late : env2.table (st2a.time + 1/10) = [(3, 4)] := by
  show (if ((0:ℚ) + 1/10) + 1/10 < 1/10 then [(1, 2), (2, 3), (3, 4)]
    else if ((0:ℚ) + 1/10) + 1/10 < 2/10 then [(1, 2), (3, 4)] else [(3, 4)]) = [(3, 4)]
  rw [if_neg (show ¬(((0:ℚ) + 1/10) + 1/10 < 1/10) by norm_num),
    if_neg (show ¬(((0:ℚ) + 1/10) + 1/10 < 2/10) by norm_num)]

theorem env2_ladder3 : terminate_loop env2 3 st2 = (true, st2a) := by
  have hal : 3 ∈ (env2.table st2.time).map Prod.snd := by
    rw [env2_table_start]
    simp
  have hdl : 3 ∉ (env2.table (st2.time + 1/10)).map Prod.snd := by
    rw [env2_table_mid]
    simp
  exact terminate_loop_second_check env2 3 st2 hal hdl

theorem env2_ladder2 : terminate_loop env2 2 st2a = (true, st2b) := by
  have hal : 2 ∈ (env2.table st2a.time).map Prod.snd := by
    show 2 ∈ (env2.table (st2.time + 1/10)).map Prod.snd
    rw [env2_table_mid]
    simp
  have hdl : 2 ∉ (env2.table (st2a.time + 1/10)).map Prod.snd := by
    rw [env2_table_late]
    simp
  exact terminate_loop_second_check env2 2 st2a hal hdl

theorem env2_cleanup :
    cleanup_loop env2 ((desc3.cleanup.getD (fun _ _ _ => [])) 3 env2 st2)
      (terminate_loop env2 3 st2).2 = (true, st2a) := by
  rw [env2_ladder3]
  rfl

theorem env2_shell :
    terminate_loop env2 2
      (cleanup_loop env2 ((desc3.cleanup.getD (fun _ _ _ => [])) 3 env2 st2)
        (terminate_loop env2 3 st2).2).2 = (true, st2b) := by
  rw [env2_cleanup]
  exact env2_ladder2

theorem env2_resolution :
    get_pid "svc" st2 = some 1 ∧ (get_child_pid env2 1 st2).head? = some 2 ∧
    (get_child_pid env2 2 st2).head? = some 3 ∧ mods2.lookup "svc" = some desc3 := by
  refine ⟨rfl, ?_, ?_, rfl⟩
  · have h : get_child_pid env2 1 st2 = [2] := by
      show ((env2.table st2.time).filter (fun pr => pr.1 == 1)).map Prod.snd = [2]
      rw [env2_table_start]
      rfl
    rw [h]
    rfl
  · have h : get_child_pid env2 2 st2 = [3] := by
      show ((env2.table st2.time).filter (fun pr => pr.1 == 2)).map Prod.snd = [3]
      rw [env2_table_start]
      rfl
    rw [h]
    rfl

theorem env2_terminate : terminate env2 mods2 "svc" st2 = some (true, st2c) := by
  obtain ⟨hs2, hb2, hm2, hd2⟩ := env2_resolution
  have h1 : (terminate_loop env2 3 st2).1 = true := by rw [env2_ladder3]
  have hc : (cleanup_loop env2 ((desc3.cleanup.getD (fun _ _ _ => [])) 3 env2 st2)
      (terminate_loop env2 3 st2).2).1 = true := by rw [env2_cleanup]
  have h2 : (terminate_loop env2 2
      (cleanup_loop env2 ((desc3.cleanup.getD (fun _ _ _ => [])) 3 env2 st2)
        (terminate_loop env2 3 st2).2).2).1 = true := by rw [env2_shell]
  rw [terminate_unfold env2 mods2 "svc" st2 1 2 3 desc3 hs2 hb2 hm2 hd2]
  simp only [h1, hc, h2, if_pos]
  rw [env2_shell]
  rfl

/-- C2 counterexample to the claim's concrete scenario: with process table
(1,2), (2,3), (3,4) and session mapping "svc" → 1 the code resolves
shell = 2 and service = 3; the complete teardown signals exactly pid 3
then pid 2 and never signals pid 4 at all — so it does not "attempt to
kill 4 before 3", and it kills 2 without ever having attempted 4. -/
theorem C2_teardown_order_cex :
    terminate env2 mods2 "svc" st2 = some (true, st2c) ∧
    killsIn st2c.log = [("-TERM", 3), ("-TERM", 2)] ∧
    (∀ q ∈ killsIn st2c.log, q.2 ≠ 4) ∧ ("-TERM", 2) ∈ killsIn st2c.log := by
  refine ⟨env2_terminate, rfl, ?_, ?_⟩
  · intro q hq
    have h : killsIn st2c.log = [("-TERM", 3), ("-TERM", 2)] := rfl
    rw [h] at hq
    rcases List.mem_cons.mp hq with hq | hq
    · rw [hq]
      simp
    rcases List.mem_cons.mp hq with hq | hq
    · rw [hq]
      simp
    · exact absurd hq (List.not_mem_nil q)
  · have h : killsIn st2c.log = [("-TERM", 3), ("-TERM", 2)] := rfl
    rw [h]
    simp

theorem C2_teardown_order_witness :
    (get_pid "svc" st2 = some 1 ∧ (get_child_pid env2 1 st2).head? = some 2 ∧
      (get_child_pid env2 2 st2).head? = some 3 ∧ mods2.lookup "svc" = some desc3) ∧
    (∃ b s1 tail,
      terminate env2 mods2 "svc" st2 = some (b, s1) ∧
      s1.log = st2.log ++ tail ∧
      ∃ cM pref suff counts cB,
        1 ≤ cM ∧
        (desc3.cleanup.getD (fun _ _ _ => [])) 3 env2 st2 = pref ++ suff ∧
        counts.length = pref.length ∧
        (∀ c ∈ counts, 1 ≤ c) ∧
        killPids tail =
          List.replicate cM 3 ++
            ((List.zipWith (fun p c => List.replicate c p) pref counts).flatten ++
              List.replicate cB 2) ∧
        ((terminate_loop env2 3 st2).1 = false →
          pref = [] ∧ cB = 0 ∧ Event.quit "svc" ∉ tail) ∧
        ((∀ e ∈ tail, isQuit e = false) ∨
          (suff = [] ∧ 1 ≤ cB ∧
            ∃ t0, tail = t0 ++ [Event.quit "svc"] ∧ ∀ e ∈ t0, isQuit e = false))) := by
  obtain ⟨hs2, hb2, hm2, hd2⟩ := env2_resolution
  exact ⟨⟨hs2, hb2, hm2, hd2⟩,
    C2_teardown_order env2 mods2 "svc" st2 1 2 3 desc3 hs2 hb2 hm2 hd2⟩

/-- C6: `wait_killed` polls check-then-sleep: each iteration first checks
liveness on a fresh snapshot and returns `true` at once when the pid is
absent, else subtracts the interval and sleeps.  Against a process that is
alive strictly before 0.35 s of elapsed time and gone from then on, the
call with budget 2.0 and interval 0.1 returns `true`, having polled 5
times (≥ 4): the exact event tail is check, sleep, check, sleep, check,
sleep, check, sleep, check — four positive checks interleaved with four
sleeps, ended by the fifth check observing death, with no sleep after
it. -/
theorem C6_poll_pattern (env : Env) (pid : ℕ) (s : St)
    (halive : ∀ t : ℚ, t < s.time + 7/20 → pid ∈ (env.table t).map Prod.snd)
    (hdead : ∀ t : ℚ, s.time + 7/20 ≤ t → pid ∉ (env.table t).map Prod.snd) :
    (wait_killed env pid 2 (1/10) s).1 = true ∧
    (wait_killed env pid 2 (1/10) s).2.log = s.log ++
      [Event.check pid true, Event.sleep (1/10), Event.check pid true, Event.sleep (1/10),
       Event.check pid true, Event.sleep (1/10), Event.check pid true, Event.sleep (1/10),
       Event.check pid false] := by
  have hfuel : Int.toNat ⌈(2:ℚ) / (1/10)⌉ = 20 := by
    have h20 : ⌈(2:ℚ) / (1/10)⌉ = 20 := by norm_num
    rw [h20]
    rfl
  have e : wait_killed env pid 2 (1/10) s =
      (true,
        { s with
           time := s.time + 1/10 + 1/10 + 1/10 + 1/10,
           log := s.log ++ [Event.check pid true, Event.sleep (1/10)]
             ++ [Event.check pid true, Event.sleep (1/10)]
             ++ [Event.check pid true, Event.sleep (1/10)]
             ++ [Event.check pid true, Event.sleep (1/10)]
             ++ [Event.check pid false] }) := by
    calc wait_killed env pid 2 (1/10) s
        = wait_go env pid (1/10) 20 2 s := by rw [wait_killed, hfuel]
      _ = wait_go env pid (1/10) 19 (2 - 1/10)
            { s with
               time := s.time + 1/10,
               log := s.log ++ [Event.check pid true, Event.sleep (1/10)] } := by
          rw [show (20:ℕ) = 19 + 1 from rfl]
          exact wait_go_step_alive env pid (1/10) 2 19 s (by norm_num)
            (halive s.time (by linarith))
      _ = wait_go env pid (1/10) 18 (2 - 1/10 - 1/10)
            { s with
               time := s.time + 1/10 + 1/10,
               log := s.log ++ [Event.check pid true, Event.sleep (1/10)]
                 ++ [Event.check pid true, Event.sleep (1/10)] } := by
          rw [show (19:ℕ) = 18 + 1 from rfl]
          exact wait_go_step_alive env pid (1/10) (2 - 1/10) 18
            { s with
               time := s.time + 1/10,
               log := s.log ++ [Event.check pid true, Event.sleep (1/10)] }
            (by norm_num) (halive (s.time + 1/10) (by linarith))
      _ = wait_go env pid (1/10) 17 (2 - 1/10 - 1/10 - 1/10)
            { s with
               time := s.time + 1/10 + 1/10 + 1/10,
               log := s.log ++ [Event.check pid true, Event.sleep (1/10)]
                 ++ [Event.check pid true, Event.sleep (1/10)]
                 ++ [Event.check pid true, Event.sleep (1/10)] } := by
          rw [show (18:ℕ) = 17 + 1 from rfl]
          exact wait_go_step_alive env pid (1/10) (2 - 1/10 - 1/10) 17
            { s with
               time := s.time + 1/10 + 1/10,
               log := s.log ++ [Event.check pid true, Event.sleep (1/10)]
                 ++ [Event.check pid true, Event.sleep (1/10)] }
            (by norm_num) (halive (s.time + 1/10 + 1/10) (by linarith))
      _ = wait_go env pid (1/10) 16 (2 - 1/10 - 1/10 - 1/10 - 1/10)
            { s with
               time := s.time + 1/10 + 1/10 + 1/10 + 1/10,
               log := s.log ++ [Event.check pid true, Event.sleep (1/10)]
                 ++ [Event.check pid true, Event.sleep (1/10)]
                 ++ [Event.check pid true, Event.sleep (1/10)]
                 ++ [Event.check pid true, Event.sleep (1/10)] } := by
          rw [show (17:ℕ) = 16 + 1 from rfl]
          exact wait_go_step_alive env pid (1/10) (2 - 1/10 - 1/10 - 1/10) 16
            { s with
               time := s.time + 1/10 + 1/10 + 1/10,
               log := s.log ++ [Event.check pid true, Event.sleep (1/10)]
                 ++ [Event.check pid true, Event.sleep (1/10)]
                 ++ [Event.check pid true, Event.sleep (1/10)] }
            (by norm_num) (halive (s.time + 1/10 + 1/10 + 1/10) (by linarith))
      _ = (true,
            { s with
               time := s.time + 1/10 + 1/10 + 1/10 + 1/10,
               log := s.log ++ [Event.check pid true, Event.sleep (1/10)]
                 ++ [Event.check pid true, Event.sleep (1/10)]
                 ++ [Event.check pid true, Event.sleep (1/10)]
                 ++ [Event.check pid true, Event.sleep (1/10)]
                 ++ [Event.check pid false] }) := by
          rw [show (16:ℕ) = 15 + 1 from rfl]
          exact wait_go_step_dead env pid (1/10) (2 - 1/10 - 1/10 - 1/10 - 1/10) 15
            { s with
               time := s.time + 1/10 + 1/10 + 1/10 + 1/10,
               log := s.log ++ [Event.check pid true, Event.sleep (1/10)]
                 ++ [Event.check pid true, Event.sleep (1/10)]
                 ++ [Event.check pid true, Event.sleep (1/10)]
                 ++ [Event.check pid true, Event.sleep (1/10)] }
            (by norm_num) (hdead (s.time + 1/10 + 1/10 + 1/10 + 1/10) (by linarith))
  refine ⟨by rw [e], ?_⟩
  rw [e]
  simp

/-- World for the C6 witness: pid 5 is alive strictly before 0.35 s and
absent from then on. -/
def env6 : Env := ⟨fun t => if t < 7/20 then [(0, 5)] else [], fun _ l => l⟩

theorem C6_poll_pattern_witness :
    ((∀ t : ℚ, t < st0.time + 7/20 → 5 ∈ (env6.table t).map Prod.snd) ∧
      (∀ t : ℚ, st0.time + 7/20 ≤ t → 5 ∉ (env6.table t).map Prod.snd)) ∧
    ((wait_killed env6 5 2 (1/10) st0).1 = true ∧
      (wait_killed env6 5 2 (1/10) st0).2.log = st0.log ++
        [Event.check 5 true, Event.sleep (1/10), Event.check 5 true, Event.sleep (1/10),
         Event.check 5 true, Event.sleep (1/10), Event.check 5 true, Event.sleep (1/10),
         Event.check 5 false]) := by
  have hz : st0.time = (0:ℚ) := rfl
  have halive : ∀ t : ℚ, t < st0.time + 7/20 → 5 ∈ (env6.table t).map Prod.snd := by
    intro t ht
    rw [hz] at ht
    have h : t < 7/20 := by linarith
    show 5 ∈ ((if t < 7/20 then [(0, 5)] else []) : List (ℕ × ℕ)).map Prod.snd
    rw [if_pos h]
    simp
  have hdead : ∀ t : ℚ, st0.time + 7/20 ≤ t → 5 ∉ (env6.table t).map Prod.snd := by
    intro t ht
    rw [hz] at ht
    have h : ¬(t < 7/20) := by linarith
    show 5 ∉ ((if t < 7/20 then [(0, 5)] else []) : List (ℕ × ℕ)).map Prod.snd
    rw [if_neg h]
    simp
  exact ⟨⟨halive, hdead⟩, C6_poll_pattern env6 5 st0 halive hdead⟩

end Screenlaunch
